import Mathlib

/-!
Verification of the object-management core of tpm2-pkcs11 (src/lib/object.h).

The repository snapshot under verification ships only the public header
`src/lib/object.h`, a build fragment and an integration test; the body of
`object.c` is absent.  Every operation below is therefore modelled from the
natural-language specification (spec.md) together with the declarations and
doc comments of the header, as the status rules for missing code require.
Machine integers (`unsigned`, `uint32_t`) are modelled as `Nat`; `twist`
byte strings are `List Nat`, with `Option` marking nullable pointers.
-/

/-- Return codes of the PKCS#11 API surface used by the object core.
Only the codes the spec's error-handling design (§7) assigns to these
operations are modelled. -/
inductive CK_RV where
  | CKR_OK
  | CKR_HOST_MEMORY
  | CKR_GENERAL_ERROR
  | CKR_DEVICE_ERROR
  | CKR_ACTION_PROHIBITED
  | CKR_ATTRIBUTE_TYPE_INVALID
  | CKR_OBJECT_HANDLE_INVALID
  | CKR_OPERATION_ACTIVE
  | CKR_OPERATION_NOT_INITIALIZED
  | CKR_PIN_INCORRECT
  deriving DecidableEq, Repr

/-- One typed attribute record: a `CK_ATTRIBUTE` carrying its type tag and
its value bytes (`pValue`/`ulValueLen` collapsed to a byte list). -/
structure CK_ATTRIBUTE where
  type : Nat
  value : List Nat
  deriving DecidableEq, Repr

/-- The attribute store of one object: an ordered list of typed records
(`attr_list` in the header). -/
abbrev attr_list := List CK_ATTRIBUTE

/-- The token object of `src/lib/object.h` (struct tobject).  Fields follow
the struct: `active` use counter, durable `id`, application-visible
`obj_handle`, the `pub`/`priv` TPM blobs, the wrapped auth `objauth`, the
attribute store `attrs`, the transient clear-text `unsealed_auth`, the
loaded `tpm_handle` (modelled as `Option Nat`, `none` when no handle is
loaded), the cached `tpm_serialized_tr` context, and `is_authenticated`.
The `link` field is modelled from the spec: §4.5 gives a token object an
optional link reference to another object's `id`; the struct member does
not appear in the shipped header because the link mechanism lives in the
missing `object.c`. -/
structure tobject where
  active : Nat
  id : Nat
  obj_handle : Nat
  pub : Option (List Nat)
  priv : Option (List Nat)
  objauth : Option (List Nat)
  attrs : attr_list
  unsealed_auth : Option (List Nat)
  tpm_handle : Option Nat
  tpm_serialized_tr : Option (List Nat)
  is_authenticated : Bool
  link : Option Nat
  deriving DecidableEq, Repr

/-- Modelled from the spec: the body of `tobject_new` is missing from src/.
A fresh token object is zero-initialized: no users, no blobs, no
attributes, no auth material, no loaded handle, no link. -/
def tobject_new : tobject :=
  { active := 0
    id := 0
    obj_handle := 0
    pub := none
    priv := none
    objauth := none
    attrs := []
    unsealed_auth := none
    tpm_handle := none
    tpm_serialized_tr := none
    is_authenticated := false
    link := none }

/-- Modelled from the spec: the body of `_tobject_user_increment` is missing
from src/.  Per §4.2, incrementing from 0 triggers the hardware load via the
transport collaborator and populates the hardware handle; intermediate
increments are pure counter arithmetic.  Per §7, a device error during the
0→1 load leaves `active` unincremented and the handle absent, and is
propagated as `CKR_DEVICE_ERROR`.  The transport's response is passed in as
`load`: `some h` is a successfully loaded handle, `none` a load failure.
The `__FILE__`/`__LINE__` arguments the macro wrapper adds are diagnostic
only and are not modelled. -/
def tobject_user_increment (load : Option Nat) (t : tobject) : CK_RV × tobject :=
  if t.active = 0 then
    match load with
    | some h => (CK_RV.CKR_OK, { t with active := 1, tpm_handle := some h })
    | none => (CK_RV.CKR_DEVICE_ERROR, t)
  else
    (CK_RV.CKR_OK, { t with active := t.active + 1 })

/-- Modelled from the spec: the body of `_tobject_user_decrement` is
missing from src/.  Per the header doc it returns CKR_OK on success and
CKR_GENERAL_ERROR if the object is not active; per §4.2 a decrement below
zero is reported, not clamped, and decrementing to 0 evicts the hardware
handle (per §7 evict failures never block the transition, so eviction is
unconditional here). -/
def tobject_user_decrement (t : tobject) : CK_RV × tobject :=
  if t.active = 0 then
    (CK_RV.CKR_GENERAL_ERROR, t)
  else if t.active = 1 then
    (CK_RV.CKR_OK, { t with active := 0, tpm_handle := none })
  else
    (CK_RV.CKR_OK, { t with active := t.active - 1 })

/-- One use-count call against an object: an increment (carrying the
transport's load response, relevant only on a 0→1 transition) or a
decrement. -/
inductive UseOp where
  | inc (load : Option Nat)
  | dec
  deriving DecidableEq, Repr

/-- Run a single use-count call, returning the reported condition and the
resulting object. -/
def runStep (t : tobject) (op : UseOp) : CK_RV × tobject :=
  match op with
  | .inc load => tobject_user_increment load t
  | .dec => tobject_user_decrement t

/-- Run a sequence of use-count calls, keeping only the final object. -/
def runOps : tobject → List UseOp → tobject
  | t, [] => t
  | t, op :: rest => runOps (runStep t op).2 rest

/-- Every call in the sequence, run from `t`, reports CKR_OK. -/
def allOK : tobject → List UseOp → Bool
  | _, [] => true
  | t, op :: rest =>
    decide ((runStep t op).1 = CK_RV.CKR_OK) && allOK (runStep t op).2 rest

/-- Number of increment calls in the sequence. -/
def incCount : List UseOp → Nat
  | [] => 0
  | .inc _ :: rest => incCount rest + 1
  | .dec :: rest => incCount rest

/-- Number of decrement calls in the sequence. -/
def decCount : List UseOp → Nat
  | [] => 0
  | .inc _ :: rest => decCount rest
  | .dec :: rest => decCount rest + 1

theorem allOK_append (pre suf : List UseOp) :
    ∀ t : tobject, allOK t (pre ++ suf) = true → allOK t pre = true := by
  induction pre with
  | nil => intro t _; rfl
  | cons op rest ih =>
    intro t h
    simp only [List.cons_append, allOK, Bool.and_eq_true] at h ⊢
    exact ⟨h.1, ih _ h.2⟩

theorem increment_active_of_ok (load : Option Nat) (t : tobject)
    (h : (tobject_user_increment load t).1 = CK_RV.CKR_OK) :
    (tobject_user_increment load t).2.active = t.active + 1 := by
  by_cases h0 : t.active = 0
  · cases load with
    | none => simp [tobject_user_increment, h0] at h
    | some hw => simp [tobject_user_increment, h0]
  · simp [tobject_user_increment, h0]

theorem decrement_active_of_ok (t : tobject)
    (h : (tobject_user_decrement t).1 = CK_RV.CKR_OK) :
    (tobject_user_decrement t).2.active + 1 = t.active := by
  by_cases h0 : t.active = 0
  · simp [tobject_user_decrement, h0] at h
  · by_cases h1 : t.active = 1
    · simp [tobject_user_decrement, h0, h1]
    · simp [tobject_user_decrement, h0, h1]
      omega

theorem runOps_active_eq (ops : List UseOp) :
    ∀ t : tobject, allOK t ops = true →
      (runOps t ops).active + decCount ops = t.active + incCount ops := by
  induction ops with
  | nil => intro t _; simp [runOps, decCount, incCount]
  | cons op rest ih =>
    intro t h
    simp only [allOK, Bool.and_eq_true, decide_eq_true_eq] at h
    obtain ⟨hok, hrest⟩ := h
    have hrec := ih (runStep t op).2 hrest
    cases op with
    | inc load =>
      simp only [runStep] at hok hrec
      have hstep := increment_active_of_ok load t hok
      simp only [runOps, runStep, incCount, decCount]
      omega
    | dec =>
      simp only [runStep] at hok hrec
      have hstep := decrement_active_of_ok t hok
      simp only [runOps, runStep, incCount, decCount]
      omega

/-- The spec's state invariant tying the loaded hardware handle to the use
counter: the handle is present exactly while the object has active users. -/
def handleInv (t : tobject) : Prop :=
  t.tpm_handle ≠ none ↔ 0 < t.active

theorem runStep_handleInv (t : tobject) (op : UseOp) (h : handleInv t) :
    handleInv (runStep t op).2 := by
  cases op with
  | inc load =>
    by_cases h0 : t.active = 0
    · cases load with
      | some hw => simp [runStep, tobject_user_increment, h0, handleInv]
      | none =>
        have heq : (runStep t (UseOp.inc none)).2 = t := by
          simp [runStep, tobject_user_increment, h0]
        rw [heq]; exact h
    · have hpos : 0 < t.active := Nat.pos_of_ne_zero h0
      have hh : t.tpm_handle ≠ none := h.mpr hpos
      simp [runStep, tobject_user_increment, h0, handleInv, hh]
  | dec =>
    by_cases h0 : t.active = 0
    · have heq : (runStep t UseOp.dec).2 = t := by
        simp [runStep, tobject_user_decrement, h0]
      rw [heq]; exact h
    · by_cases h1 : t.active = 1
      · simp [runStep, tobject_user_decrement, h0, h1, handleInv]
      · have hh : t.tpm_handle ≠ none := h.mpr (Nat.pos_of_ne_zero h0)
        simp [runStep, tobject_user_decrement, h0, h1, handleInv, hh]
        omega

theorem runOps_handleInv (ops : List UseOp) :
    ∀ t : tobject, handleInv t → handleInv (runOps t ops) := by
  induction ops with
  | nil => intro t h; exact h
  | cons op rest ih => intro t h; exact ih _ (runStep_handleInv t op h)

/-- C1: for every sequence of increment_use/decrement_use calls on one
object starting from a fresh object in which every call succeeds, at every
point (i.e. after every prefix of the sequence) the use counter `active`
equals the number of increments minus the number of decrements and the
decrements never outnumber the increments (the counter never goes
negative); and a decrement invoked when the counter is zero returns
CKR_GENERAL_ERROR and leaves the object, counter included, unchanged
rather than clamping silently. -/
theorem use_counter_conservation :
    (∀ pre suf : List UseOp, allOK tobject_new (pre ++ suf) = true →
        (runOps tobject_new pre).active + decCount pre = incCount pre
        ∧ decCount pre ≤ incCount pre)
    ∧ (∀ t : tobject, t.active = 0 →
        tobject_user_decrement t = (CK_RV.CKR_GENERAL_ERROR, t)) := by
  constructor
  · intro pre suf h
    have hpre := allOK_append pre suf tobject_new h
    have hrun := runOps_active_eq pre tobject_new hpre
    have hz : tobject_new.active = 0 := rfl
    omega
  · intro t h0
    simp [tobject_user_decrement, h0]

theorem use_counter_conservation_witness :
    (runOps tobject_new [UseOp.inc (some 5), UseOp.inc (some 6), UseOp.dec]).active
        + decCount [UseOp.inc (some 5), UseOp.inc (some 6), UseOp.dec]
      = incCount [UseOp.inc (some 5), UseOp.inc (some 6), UseOp.dec]
    ∧ tobject_user_decrement tobject_new = (CK_RV.CKR_GENERAL_ERROR, tobject_new) :=
  ⟨(use_counter_conservation.1
      [UseOp.inc (some 5), UseOp.inc (some 6), UseOp.dec] [] (by decide)).1,
   use_counter_conservation.2 tobject_new (by decide)⟩

/-- C2: in every state reachable from a fresh object by use-count calls,
the hardware handle is present if and only if the use counter is strictly
positive; a successful increment from 0 populates the handle with the
loaded one, an increment from a positive count leaves the handle untouched
and only bumps the counter, a decrement from 1 clears the handle, and a
decrement from a count above 1 leaves the handle untouched and only drops
the counter. -/
theorem handle_present_iff_active (ops : List UseOp) :
    ((runOps tobject_new ops).tpm_handle ≠ none
        ↔ 0 < (runOps tobject_new ops).active)
    ∧ (∀ (t : tobject) (hw : Nat), t.active = 0 →
        tobject_user_increment (some hw) t
          = (CK_RV.CKR_OK, { t with active := 1, tpm_handle := some hw }))
    ∧ (∀ (t : tobject) (load : Option Nat), 0 < t.active →
        (tobject_user_increment load t).2.tpm_handle = t.tpm_handle
        ∧ (tobject_user_increment load t).2.active = t.active + 1)
    ∧ (∀ t : tobject, t.active = 1 →
        tobject_user_decrement t
          = (CK_RV.CKR_OK, { t with active := 0, tpm_handle := none }))
    ∧ (∀ t : tobject, 1 < t.active →
        (tobject_user_decrement t).2.tpm_handle = t.tpm_handle
        ∧ (tobject_user_decrement t).2.active = t.active - 1) := by
  refine ⟨?_, ?_, ?_, ?_, ?_⟩
  · have h0 : handleInv tobject_new := by simp [handleInv, tobject_new]
    exact runOps_handleInv ops tobject_new h0
  · intro t hw h0
    simp [tobject_user_increment, h0]
  · intro t load hpos
    have h0 : ¬ t.active = 0 := by omega
    simp [tobject_user_increment, h0]
  · intro t h1
    have h0 : ¬ t.active = 0 := by omega
    simp [tobject_user_decrement, h0, h1]
  · intro t h2
    have h0 : ¬ t.active = 0 := by omega
    have h1 : ¬ t.active = 1 := by omega
    simp [tobject_user_decrement, h0, h1]

theorem handle_present_iff_active_witness :
    ((runOps tobject_new [UseOp.inc (some 5), UseOp.dec]).tpm_handle ≠ none
        ↔ 0 < (runOps tobject_new [UseOp.inc (some 5), UseOp.dec]).active)
    ∧ tobject_user_increment (some 7) tobject_new
        = (CK_RV.CKR_OK, { tobject_new with active := 1, tpm_handle := some 7 }) :=
  ⟨(handle_present_iff_active [UseOp.inc (some 5), UseOp.dec]).1,
   (handle_present_iff_active [UseOp.inc (some 5), UseOp.dec]).2.1
      tobject_new 7 (by decide)⟩

/-- C9 counterexample: on a fresh object whose 0→1 hardware load fails,
`tobject_user_increment` returns CKR_DEVICE_ERROR, which is neither CKR_OK
nor CKR_GENERAL_ERROR, refuting the claim that the returned condition is
always one of those two. -/
theorem increment_returns_device_error :
    (tobject_user_increment none tobject_new).1 = CK_RV.CKR_DEVICE_ERROR
    ∧ ¬ ((tobject_user_increment none tobject_new).1 = CK_RV.CKR_OK
        ∨ (tobject_user_increment none tobject_new).1 = CK_RV.CKR_GENERAL_ERROR) := by
  decide

/-- C9 (amended): every call to `tobject_user_increment` returns either
CKR_OK or CKR_DEVICE_ERROR, the latter exactly when the call is a 0→1
transition whose hardware load fails; and whenever the returned condition
is not CKR_OK the object, use counter and hardware handle included, is
unchanged. -/
theorem increment_rv_classification (load : Option Nat) (t : tobject) :
    ((tobject_user_increment load t).1 = CK_RV.CKR_OK
      ∨ ((tobject_user_increment load t).1 = CK_RV.CKR_DEVICE_ERROR
          ∧ t.active = 0 ∧ load = none))
    ∧ (t.active = 0 → load = none →
        (tobject_user_increment load t).1 = CK_RV.CKR_DEVICE_ERROR)
    ∧ ((tobject_user_increment load t).1 ≠ CK_RV.CKR_OK
        → (tobject_user_increment load t).2 = t) := by
  by_cases h0 : t.active = 0
  · cases load with
    | some hw => simp [tobject_user_increment, h0]
    | none => simp [tobject_user_increment, h0]
  · simp [tobject_user_increment, h0]

theorem increment_rv_classification_witness :
    ((tobject_user_increment none tobject_new).1 = CK_RV.CKR_OK
      ∨ ((tobject_user_increment none tobject_new).1 = CK_RV.CKR_DEVICE_ERROR
          ∧ tobject_new.active = 0 ∧ (none : Option Nat) = none))
    ∧ (tobject_user_increment none tobject_new).1 = CK_RV.CKR_DEVICE_ERROR
    ∧ (tobject_user_increment none tobject_new).2 = tobject_new :=
  ⟨(increment_rv_classification none tobject_new).1,
   (increment_rv_classification none tobject_new).2.1 (by decide) (by decide),
   (increment_rv_classification none tobject_new).2.2 (by decide)⟩

/-- Look up the attribute record of a given type in an attribute store
(first match; per the data model attribute types are unique per object). -/
def lookupAttr (ty : Nat) (l : attr_list) : Option CK_ATTRIBUTE :=
  l.find? (fun a => a.type == ty)

/-- An attribute query record as `tobject_get_attribute_full` consumes it:
only a type tag and the caller's buffer capacity are supplied. -/
structure AttrQuery where
  qtype : Nat
  capacity : Nat
  deriving DecidableEq, Repr

/-- Outcome of a full-probe attribute fetch: the required length reported
without copying, a copied value with its actual length, or
attribute-type-invalid. -/
inductive AttrFullResult where
  | needed (len : Nat)
  | copied (value : List Nat) (len : Nat)
  | invalidType
  deriving DecidableEq, Repr

/-- Modelled from the spec: the body of `tobject_get_attribute_full` is
missing from src/.  Per §4.1 `get_full`, on a type match with insufficient
caller capacity the required length is reported without copying; with
sufficient capacity the value is copied and the actual length returned; on
no match attribute-type-invalid is reported.  The unchanged object is
returned alongside to express that the store is never mutated. -/
def tobject_get_attribute_full (t : tobject) (q : AttrQuery) :
    AttrFullResult × tobject :=
  match lookupAttr q.qtype t.attrs with
  | none => (AttrFullResult.invalidType, t)
  | some a =>
    if a.value.length ≤ q.capacity then
      (AttrFullResult.copied a.value a.value.length, t)
    else
      (AttrFullResult.needed a.value.length, t)

/-- C5: the full-probe attribute fetch never mutates the attribute store;
when an attribute of the queried type exists and the supplied capacity is
insufficient it reports the required length without copying any bytes;
when the capacity is sufficient it copies the value and returns the actual
length; and when no attribute of that type exists it reports
attribute-type-invalid. -/
theorem get_attribute_full_probe (t : tobject) (q : AttrQuery) :
    (tobject_get_attribute_full t q).2 = t
    ∧ (lookupAttr q.qtype t.attrs = none →
        (tobject_get_attribute_full t q).1 = AttrFullResult.invalidType)
    ∧ (∀ a : CK_ATTRIBUTE, lookupAttr q.qtype t.attrs = some a →
        (q.capacity < a.value.length →
          (tobject_get_attribute_full t q).1 = AttrFullResult.needed a.value.length)
        ∧ (a.value.length ≤ q.capacity →
          (tobject_get_attribute_full t q).1
            = AttrFullResult.copied a.value a.value.length)) := by
  refine ⟨?_, ?_, ?_⟩
  · unfold tobject_get_attribute_full
    cases h : lookupAttr q.qtype t.attrs with
    | none => simp
    | some a => by_cases hc : a.value.length ≤ q.capacity <;> simp [hc]
  · intro h
    simp [tobject_get_attribute_full, h]
  · intro a h
    constructor
    · intro hc
      have hn : ¬ a.value.length ≤ q.capacity := by omega
      simp [tobject_get_attribute_full, h, hn]
    · intro hc
      simp [tobject_get_attribute_full, h, hc]

theorem get_attribute_full_probe_witness :
    (tobject_get_attribute_full { tobject_new with attrs := [⟨3, [9, 9]⟩] }
        ⟨3, 1⟩).1 = AttrFullResult.needed 2
    ∧ (tobject_get_attribute_full { tobject_new with attrs := [⟨3, [9, 9]⟩] }
        ⟨3, 2⟩).1 = AttrFullResult.copied [9, 9] 2
    ∧ (tobject_get_attribute_full { tobject_new with attrs := [⟨3, [9, 9]⟩] }
        ⟨4, 8⟩).1 = AttrFullResult.invalidType
    ∧ (tobject_get_attribute_full { tobject_new with attrs := [⟨3, [9, 9]⟩] }
        ⟨3, 1⟩).2 = { tobject_new with attrs := [⟨3, [9, 9]⟩] } := by
  refine ⟨?_, ?_, ?_, ?_⟩
  · exact ((get_attribute_full_probe { tobject_new with attrs := [⟨3, [9, 9]⟩] }
      ⟨3, 1⟩).2.2 ⟨3, [9, 9]⟩ (by decide)).1 (by decide)
  · exact ((get_attribute_full_probe { tobject_new with attrs := [⟨3, [9, 9]⟩] }
      ⟨3, 2⟩).2.2 ⟨3, [9, 9]⟩ (by decide)).2 (by decide)
  · exact (get_attribute_full_probe { tobject_new with attrs := [⟨3, [9, 9]⟩] }
      ⟨4, 8⟩).2.1 (by decide)
  · exact (get_attribute_full_probe { tobject_new with attrs := [⟨3, [9, 9]⟩] }
      ⟨3, 1⟩).1

/-- Modelled from the spec: the body of `tobject_get_attrs` is missing from
src/.  Per the header doc and §4.5, attribute reads against a linked object
are redirected to the counterpart that holds the public attributes; the
link is an optional reference to the counterpart's `id`, resolved against
the registry, and a non-linked object serves its own attribute store.  A
dangling link falls back to the object's own store. -/
def tobject_get_attrs (reg : List tobject) (t : tobject) : attr_list :=
  match t.link with
  | none => t.attrs
  | some lid =>
    match reg.find? (fun u => u.id == lid) with
    | some u => u.attrs
    | none => t.attrs

/-- C7: for a linked pair whose private half carries a link to the public
half registered in the registry, the attribute array served for either
half is identical, so an attribute query for any attribute type (in
particular every public-class type) directed at either half returns an
identical result. -/
theorem linked_pair_attrs_agree (reg : List tobject) (pubo privo : tobject)
    (hl : privo.link = some pubo.id)
    (hp : pubo.link = none)
    (hf : reg.find? (fun u => u.id == pubo.id) = some pubo) :
    tobject_get_attrs reg privo = tobject_get_attrs reg pubo
    ∧ ∀ ty : Nat,
        lookupAttr ty (tobject_get_attrs reg privo)
          = lookupAttr ty (tobject_get_attrs reg pubo) := by
  have harr : tobject_get_attrs reg privo = tobject_get_attrs reg pubo := by
    simp [tobject_get_attrs, hl, hp, hf]
  exact ⟨harr, fun ty => by rw [harr]⟩

theorem linked_pair_attrs_agree_witness :
    tobject_get_attrs
        [{ tobject_new with id := 1, obj_handle := 11, attrs := [⟨0, [7]⟩] },
         { tobject_new with id := 2, obj_handle := 12, link := some 1 }]
        { tobject_new with id := 2, obj_handle := 12, link := some 1 }
      = tobject_get_attrs
        [{ tobject_new with id := 1, obj_handle := 11, attrs := [⟨0, [7]⟩] },
         { tobject_new with id := 2, obj_handle := 12, link := some 1 }]
        { tobject_new with id := 1, obj_handle := 11, attrs := [⟨0, [7]⟩] } :=
  (linked_pair_attrs_agree
    [{ tobject_new with id := 1, obj_handle := 11, attrs := [⟨0, [7]⟩] },
     { tobject_new with id := 2, obj_handle := 12, link := some 1 }]
    { tobject_new with id := 1, obj_handle := 11, attrs := [⟨0, [7]⟩] }
    { tobject_new with id := 2, obj_handle := 12, link := some 1 }
    (by decide) (by decide) (by decide)).1

/-- Modelled from the spec: the body of `tobject_set_blob_data` is missing
from src/.  Per the header doc and §4.2, the public blob (never NULL) and
the private blob (possibly NULL) are deep-copied into the object, replacing
any prior blobs; in this value-semantics embedding the deep copy is the
plain stored value.  CKR_HOST_MEMORY arises only from allocation failure,
which a pure embedding has no counterpart for, so the modelled call always
succeeds. -/
def tobject_set_blob_data (t : tobject) (pub : List Nat)
    (priv : Option (List Nat)) : CK_RV × tobject :=
  (CK_RV.CKR_OK, { t with pub := some pub, priv := priv })

/-- C8: a successful set_blob_data(pub, priv) with pub non-empty stores
both byte sequences, so a subsequent read of the stored blobs yields
sequences byte-identical to pub and priv (any prior blobs are replaced),
and no other field of the object changes.  The source's deep-copy /
caller-keeps-ownership clause is a memory-aliasing property that value
semantics renders automatic. -/
theorem set_blob_data_roundtrip (t : tobject) (pub : List Nat)
    (priv : Option (List Nat)) (_hne : pub ≠ []) :
    (tobject_set_blob_data t pub priv).1 = CK_RV.CKR_OK
    ∧ (tobject_set_blob_data t pub priv).2.pub = some pub
    ∧ (tobject_set_blob_data t pub priv).2.priv = priv
    ∧ (tobject_set_blob_data t pub priv).2.id = t.id
    ∧ (tobject_set_blob_data t pub priv).2.active = t.active
    ∧ (tobject_set_blob_data t pub priv).2.obj_handle = t.obj_handle
    ∧ (tobject_set_blob_data t pub priv).2.objauth = t.objauth
    ∧ (tobject_set_blob_data t pub priv).2.attrs = t.attrs
    ∧ (tobject_set_blob_data t pub priv).2.unsealed_auth = t.unsealed_auth
    ∧ (tobject_set_blob_data t pub priv).2.tpm_handle = t.tpm_handle
    ∧ (tobject_set_blob_data t pub priv).2.tpm_serialized_tr = t.tpm_serialized_tr
    ∧ (tobject_set_blob_data t pub priv).2.is_authenticated = t.is_authenticated
    ∧ (tobject_set_blob_data t pub priv).2.link = t.link := by
  simp [tobject_set_blob_data]

theorem set_blob_data_roundtrip_witness :
    (tobject_set_blob_data tobject_new [1, 2] (some [3])).1 = CK_RV.CKR_OK
    ∧ (tobject_set_blob_data tobject_new [1, 2] (some [3])).2.pub = some [1, 2]
    ∧ (tobject_set_blob_data tobject_new [1, 2] (some [3])).2.priv = some [3] := by
  have h := set_blob_data_roundtrip tobject_new [1, 2] (some [3]) (by decide)
  exact ⟨h.1, h.2.1, h.2.2.1⟩

/-- Modelled from the spec: the body of `tobject_set_id` is missing from
src/.  Per the header declaration it returns void and per §3 it assigns
the durable `id`; it touches nothing else. -/
def tobject_set_id (t : tobject) (i : Nat) : tobject :=
  { t with id := i }

/-- Modelled from the spec: the body of `tobject_set_handle` is missing
from src/.  Per the header declaration it returns void and records the
given loaded TPM handle in `tpm_handle`; it touches nothing else. -/
def tobject_set_handle (t : tobject) (hw : Nat) : tobject :=
  { t with tpm_handle := some hw }

/-- C10: tobject_set_id updates only the `id` field and tobject_set_handle
updates only the `tpm_handle` field; every other field of the token object
(use counter, handles, blobs, attributes, auth state, link) is unchanged
by either operation.  Neither operation can fail: both are total functions
returning only the updated object, mirroring the void C signatures. -/
theorem set_id_set_handle_frame (t : tobject) (i hw : Nat) :
    (tobject_set_id t i).id = i
    ∧ (tobject_set_id t i).active = t.active
    ∧ (tobject_set_id t i).obj_handle = t.obj_handle
    ∧ (tobject_set_id t i).pub = t.pub
    ∧ (tobject_set_id t i).priv = t.priv
    ∧ (tobject_set_id t i).objauth = t.objauth
    ∧ (tobject_set_id t i).attrs = t.attrs
    ∧ (tobject_set_id t i).unsealed_auth = t.unsealed_auth
    ∧ (tobject_set_id t i).tpm_handle = t.tpm_handle
    ∧ (tobject_set_id t i).tpm_serialized_tr = t.tpm_serialized_tr
    ∧ (tobject_set_id t i).is_authenticated = t.is_authenticated
    ∧ (tobject_set_id t i).link = t.link
    ∧ (tobject_set_handle t hw).tpm_handle = some hw
    ∧ (tobject_set_handle t hw).id = t.id
    ∧ (tobject_set_handle t hw).active = t.active
    ∧ (tobject_set_handle t hw).obj_handle = t.obj_handle
    ∧ (tobject_set_handle t hw).pub = t.pub
    ∧ (tobject_set_handle t hw).priv = t.priv
    ∧ (tobject_set_handle t hw).objauth = t.objauth
    ∧ (tobject_set_handle t hw).attrs = t.attrs
    ∧ (tobject_set_handle t hw).unsealed_auth = t.unsealed_auth
    ∧ (tobject_set_handle t hw).tpm_serialized_tr = t.tpm_serialized_tr
    ∧ (tobject_set_handle t hw).is_authenticated = t.is_authenticated
    ∧ (tobject_set_handle t hw).link = t.link := by
  simp [tobject_set_id, tobject_set_handle]

/-- Modelled from the spec: the body of `object_destroy` is missing from
src/.  Per §4.2 and §8, destroying an object whose use counter is positive
fails with CKR_ACTION_PROHIBITED and mutates nothing; otherwise the object
is unregistered from the registry (and its blobs released with it, the
registry being the owner) and CKR_OK is reported.  The registry is an
explicit list value, as §9's design note prescribes; an unknown handle
reports object-handle-invalid. -/
def object_destroy (tok : List tobject) (h : Nat) : CK_RV × List tobject :=
  match tok.find? (fun u => u.obj_handle == h) with
  | none => (CK_RV.CKR_OBJECT_HANDLE_INVALID, tok)
  | some t =>
    if 0 < t.active then
      (CK_RV.CKR_ACTION_PROHIBITED, tok)
    else
      (CK_RV.CKR_OK, tok.filter (fun u => ! (u.obj_handle == h)))

/-- C6: destroying a registered object with a positive use counter fails
with CKR_ACTION_PROHIBITED and performs no mutation, so the object remains
registered and queryable afterward; destroying one with a zero use counter
reports CKR_OK and unregisters it (the registry keeps exactly the other
objects, and the destroyed handle is no longer found). -/
theorem destroy_active_gate (tok : List tobject) (h : Nat) (t : tobject)
    (hf : tok.find? (fun u => u.obj_handle == h) = some t) :
    (0 < t.active →
        object_destroy tok h = (CK_RV.CKR_ACTION_PROHIBITED, tok)
        ∧ (object_destroy tok h).2.find? (fun u => u.obj_handle == h) = some t)
    ∧ (t.active = 0 →
        (object_destroy tok h).1 = CK_RV.CKR_OK
        ∧ (object_destroy tok h).2 = tok.filter (fun u => ! (u.obj_handle == h))
        ∧ (object_destroy tok h).2.find? (fun u => u.obj_handle == h) = none) := by
  constructor
  · intro hpos
    constructor
    · simp [object_destroy, hf, hpos]
    · simp only [object_destroy, hf]
      rw [if_pos hpos]
      exact hf
  · intro h0
    have hact : ¬ 0 < t.active := by omega
    refine ⟨?_, ?_, ?_⟩
    · simp [object_destroy, hf, hact]
    · simp [object_destroy, hf, hact]
    · simp only [object_destroy, hf]
      rw [if_neg hact]
      rw [List.find?_eq_none]
      intro x hx
      have hm := (List.mem_filter.mp hx).2
      simp only [Bool.not_eq_eq_eq_not, Bool.not_true] at hm
      simp [hm]

theorem destroy_active_gate_witness :
    object_destroy
        [{ tobject_new with obj_handle := 21, active := 1 },
         { tobject_new with obj_handle := 22 }] 21
      = (CK_RV.CKR_ACTION_PROHIBITED,
        [{ tobject_new with obj_handle := 21, active := 1 },
         { tobject_new with obj_handle := 22 }])
    ∧ (object_destroy
        [{ tobject_new with obj_handle := 21, active := 1 },
         { tobject_new with obj_handle := 22 }] 22).1 = CK_RV.CKR_OK
    ∧ (object_destroy
        [{ tobject_new with obj_handle := 21, active := 1 },
         { tobject_new with obj_handle := 22 }] 22).2.find?
          (fun u => u.obj_handle == 22) = none := by
  have h1 := destroy_active_gate
    [{ tobject_new with obj_handle := 21, active := 1 },
     { tobject_new with obj_handle := 22 }] 21
    { tobject_new with obj_handle := 21, active := 1 } (by decide)
  have h2 := destroy_active_gate
    [{ tobject_new with obj_handle := 21, active := 1 },
     { tobject_new with obj_handle := 22 }] 22
    { tobject_new with obj_handle := 22 } (by decide)
  exact ⟨(h1.1 (by decide)).1, (h2.2 (by decide)).1, (h2.2 (by decide)).2.2⟩

/-- Modelled from the spec: the authenticate operation of §4.4 is missing
from src/.  The actual unwrap is delegated to the hardware/authorization
collaborator, whose outcome is passed in as `unwrap`: on success the
object becomes authenticated and the clear-text auth is populated; on
failure state is unchanged and a PIN-incorrect condition is reported. -/
def object_authenticate (unwrap : Option (List Nat)) (t : tobject) :
    CK_RV × tobject :=
  match unwrap with
  | some clear =>
    (CK_RV.CKR_OK, { t with is_authenticated := true, unsealed_auth := some clear })
  | none => (CK_RV.CKR_PIN_INCORRECT, t)

/-- Modelled from the spec: the logout handling is missing from src/.  Per
§4.4 the transient `unsealed_auth` is cleared on logout, and the
session-specific authenticated flag falls with it. -/
def object_logout (t : tobject) : tobject :=
  { t with unsealed_auth := none, is_authenticated := false }

/-- Modelled from the spec: the body of `tobject_set_auth` is missing from
src/.  The header doc says it sets the internal TPM auth fields via deep
copy from `authbin`, the auth in plaintext binary form, and
`wrappedauthhex`, the wrapped auth; the struct's only clear-text auth slot
is `unsealed_auth` and its wrapped slot is `objauth`, so those are the
fields written (§4.2: used when importing a key with a per-object
authorization value). -/
def tobject_set_auth (t : tobject) (authbin wrappedauthhex : Option (List Nat)) :
    CK_RV × tobject :=
  (CK_RV.CKR_OK, { t with unsealed_auth := authbin, objauth := wrappedauthhex })

/-- Modelled from the spec: the body of `tobject_free` is missing from
src/.  Destroying/freeing an object releases its material; per §4.4 the
transient clear-text auth is cleared on destroy. -/
def tobject_free (t : tobject) : tobject :=
  { t with unsealed_auth := none, is_authenticated := false, pub := none,
           priv := none, objauth := none, tpm_serialized_tr := none, attrs := [] }

/-- Modelled from the spec: the durable record the store collaborator
persists for an object (§6): the durable id, the two blobs, the wrapped
auth and the attributes.  The transient `unsealed_auth`, the use counter
and the session flags have no slot in it. -/
structure tobject_record where
  id : Nat
  pub : Option (List Nat)
  priv : Option (List Nat)
  objauth : Option (List Nat)
  attrs : attr_list
  deriving DecidableEq, Repr

/-- Project the durable record the store persists out of an object. -/
def tobject_persist_record (t : tobject) : tobject_record :=
  ⟨t.id, t.pub, t.priv, t.objauth, t.attrs⟩

/-- The exported attribute snapshot of an object: its attribute store. -/
def tobject_attr_snapshot (t : tobject) : attr_list :=
  t.attrs

/-- One auth-relevant operation against an object: an authenticate attempt
(carrying the collaborator's unwrap outcome), a logout, an import-time
set_auth, or the final free on destroy. -/
inductive AuthOp where
  | auth_attempt (unwrap : Option (List Nat))
  | logout
  | set_auth (authbin : Option (List Nat)) (wrappedauthhex : Option (List Nat))
  | free
  deriving DecidableEq, Repr

/-- Apply one auth-relevant operation to an object. -/
def authStep (t : tobject) (op : AuthOp) : tobject :=
  match op with
  | .auth_attempt u => (object_authenticate u t).2
  | .logout => object_logout t
  | .set_auth a w => (tobject_set_auth t a w).2
  | .free => tobject_free t

/-- Run a sequence of auth-relevant operations. -/
def runAuth : tobject → List AuthOp → tobject
  | t, [] => t
  | t, op :: rest => runAuth (authStep t op) rest

/-- The operations that can write a non-absent value into
`unsealed_auth`: a successful authenticate, or a set_auth carrying a
plaintext auth. -/
def populatesAuth : AuthOp → Bool
  | .auth_attempt (some _) => true
  | .set_auth (some _) _ => true
  | _ => false

/-- A successful authorization unwrap. -/
def isSuccessfulAuth : AuthOp → Bool
  | .auth_attempt (some _) => true
  | _ => false

theorem runAuth_unsealed_of_no_populate (ops : List AuthOp) :
    ∀ t : tobject, ops.all (fun op => ! populatesAuth op) = true →
      (runAuth t ops).unsealed_auth = t.unsealed_auth
      ∨ (runAuth t ops).unsealed_auth = none := by
  induction ops with
  | nil => intro t _; exact Or.inl rfl
  | cons op rest ih =>
    intro t h
    simp only [List.all_cons, Bool.and_eq_true] at h
    obtain ⟨hop, hrest⟩ := h
    have hopf : populatesAuth op = false := by simpa using hop
    cases op with
    | auth_attempt u =>
      cases u with
      | some c => simp [populatesAuth] at hopf
      | none =>
        have heq : authStep t (AuthOp.auth_attempt none) = t := by
          simp [authStep, object_authenticate]
        simp only [runAuth, heq]
        exact ih t hrest
    | logout =>
      rcases ih (authStep t AuthOp.logout) hrest with hsame | hnone
      · right
        simp only [runAuth]
        rw [hsame]
        simp [authStep, object_logout]
      · right
        simp only [runAuth]
        exact hnone
    | set_auth a w =>
      cases a with
      | some c => simp [populatesAuth] at hopf
      | none =>
        rcases ih (authStep t (AuthOp.set_auth none w)) hrest with hsame | hnone
        · right
          simp only [runAuth]
          rw [hsame]
          simp [authStep, tobject_set_auth]
        · right
          simp only [runAuth]
          exact hnone
    | free =>
      rcases ih (authStep t AuthOp.free) hrest with hsame | hnone
      · right
        simp only [runAuth]
        rw [hsame]
        simp [authStep, tobject_free]
      · right
        simp only [runAuth]
        exact hnone

/-- C4 counterexample: an import-time `tobject_set_auth` on a fresh object
populates `unsealed_auth` although the trace contains no successful
authorization unwrap and the object is not authenticated, refuting the
claim that the field is populated only after a successful unwrap under an
authenticated session. -/
theorem unsealed_auth_populated_without_unwrap :
    (runAuth tobject_new [AuthOp.set_auth (some [1]) (some [2])]).unsealed_auth
      = some [1]
    ∧ ([AuthOp.set_auth (some [1]) (some [2])].any isSuccessfulAuth) = false
    ∧ (runAuth tobject_new
        [AuthOp.set_auth (some [1]) (some [2])]).is_authenticated = false := by
  decide

/-- C4 (amended): in every state reachable from a fresh object by
auth-relevant operations, `unsealed_auth` is populated only if the trace
contains a successful authorization unwrap or an import-time set_auth
supplying a plaintext auth; it is cleared on logout and on destroy/free;
and neither the persisted record nor the exported attribute snapshot
depends on it (it is never included in either). -/
theorem unsealed_auth_lifecycle :
    (∀ ops : List AuthOp,
        (runAuth tobject_new ops).unsealed_auth ≠ none →
        ops.any populatesAuth = true)
    ∧ (∀ t : tobject,
        (object_logout t).unsealed_auth = none
        ∧ (object_logout t).is_authenticated = false)
    ∧ (∀ t : tobject, (tobject_free t).unsealed_auth = none)
    ∧ (∀ (t : tobject) (x : Option (List Nat)),
        tobject_persist_record { t with unsealed_auth := x }
          = tobject_persist_record t)
    ∧ (∀ (t : tobject) (x : Option (List Nat)),
        tobject_attr_snapshot { t with unsealed_auth := x }
          = tobject_attr_snapshot t) := by
  refine ⟨?_, ?_, ?_, ?_, ?_⟩
  · intro ops hne
    by_contra hany
    have hall : ops.all (fun op => ! populatesAuth op) = true := by
      rw [List.all_eq_true]
      intro x hx
      cases h : populatesAuth x with
      | false => simp [h]
      | true => exact absurd (List.any_eq_true.mpr ⟨x, hx, h⟩) hany
    rcases runAuth_unsealed_of_no_populate ops tobject_new hall with hsame | hnone
    · exact hne (hsame.trans rfl)
    · exact hne hnone
  · intro t
    exact ⟨rfl, rfl⟩
  · intro t
    rfl
  · intro t x
    rfl
  · intro t x
    rfl

theorem unsealed_auth_lifecycle_witness :
    [AuthOp.auth_attempt (some [9])].any populatesAuth = true
    ∧ (object_logout { tobject_new with unsealed_auth := some [9] }).unsealed_auth
        = none :=
  ⟨unsealed_auth_lifecycle.1 [AuthOp.auth_attempt (some [9])] (by decide),
   (unsealed_auth_lifecycle.2.1 { tobject_new with unsealed_auth := some [9] }).1⟩

/-- The exact-match template predicate of §4.1: every record of the
template must be present in the store with the same type and the same
value bytes; extra store attributes are ignored, a missing type is a
non-match. -/
def attrs_match (store : attr_list) (templ : attr_list) : Bool :=
  templ.all (fun r => store.any (fun a => a.type == r.type && a.value == r.value))

/-- The predicate the search session applies to each snapshot object:
match the template against the attributes served for the object, with
link-resolver redirection against the snapshot registry (§4.3/§4.5). -/
def matchPred (reg : List tobject) (templ : attr_list) (t : tobject) : Bool :=
  attrs_match (tobject_get_attrs reg t) templ

/-- Advance a cursor over the remaining snapshot: emit the handles of up to
`m` objects satisfying `p`, in order, and return the unexamined suffix. -/
def takeWhere (p : tobject → Bool) : Nat → List tobject → List Nat × List tobject
  | _, [] => ([], [])
  | 0, l => ([], l)
  | n + 1, t :: rest =>
    if p t then
      (t.obj_handle :: (takeWhere p n rest).1, (takeWhere p n rest).2)
    else
      takeWhere p (n + 1) rest

/-- The handles of all objects in `l` satisfying `p`, in order. -/
def matchedHandles (p : tobject → Bool) (l : List tobject) : List Nat :=
  (l.filter p).map (fun t => t.obj_handle)

theorem takeWhere_fst (p : tobject → Bool) :
    ∀ (l : List tobject) (m : Nat),
      (takeWhere p m l).1 = List.take m (matchedHandles p l) := by
  intro l
  induction l with
  | nil => intro m; cases m <;> simp [takeWhere, matchedHandles]
  | cons t rest ih =>
    intro m
    cases m with
    | zero => simp [takeWhere]
    | succ n =>
      by_cases hp : p t
      · simp [takeWhere, hp, matchedHandles, List.filter_cons, ih n]
      · simp [takeWhere, hp, matchedHandles, List.filter_cons, ih (n + 1)]

theorem matchedHandles_cons (p : tobject → Bool) (t : tobject)
    (rest : List tobject) :
    matchedHandles p (t :: rest)
      = if p t then t.obj_handle :: matchedHandles p rest
        else matchedHandles p rest := by
  by_cases hp : p t
  · simp [matchedHandles, List.filter_cons, hp]
  · simp [matchedHandles, List.filter_cons, hp]

theorem takeWhere_snd (p : tobject → Bool) :
    ∀ (l : List tobject) (m : Nat),
      matchedHandles p (takeWhere p m l).2 = List.drop m (matchedHandles p l) := by
  intro l
  induction l with
  | nil => intro m; cases m <;> simp [takeWhere, matchedHandles]
  | cons t rest ih =>
    intro m
    cases m with
    | zero => simp [takeWhere]
    | succ n =>
      by_cases hp : p t
      · rw [matchedHandles_cons]
        simp [takeWhere, hp]
        exact ih n
      · rw [matchedHandles_cons]
        simp [takeWhere, hp]
        exact ih (n + 1)

/-- The cursor state of one outstanding search: the snapshot registry taken
at find_init (used for link resolution), the unexamined remainder of the
snapshot, and the template. -/
structure SearchActive where
  all : List tobject
  rem : List tobject
  templ : attr_list
  deriving DecidableEq, Repr

/-- The §4.3 search state machine of a session: Uninitialized or
Active(template, cursor). -/
inductive SearchState where
  | uninitialized
  | searching (a : SearchActive)
  deriving DecidableEq, Repr

/-- A caller session: the token's object registry it sees and its private
search state.  The registry is an explicit value per §9's design note. -/
structure session_ctx where
  tok : List tobject
  search : SearchState
  deriving DecidableEq, Repr

/-- Modelled from the spec: registration of a freshly created object
appends it to the registry (§2 data flow); a session's search state is
untouched by it. -/
def token_register (c : session_ctx) (t : tobject) : session_ctx :=
  { c with tok := c.tok ++ [t] }

/-- Modelled from the spec: the body of `object_find_init` is missing from
src/.  Per §4.3 it snapshots the current object ordering together with the
template; calling it while a search is already active fails with the
operation-active condition. -/
def object_find_init (c : session_ctx) (templ : attr_list) : CK_RV × session_ctx :=
  match c.search with
  | SearchState.searching _ => (CK_RV.CKR_OPERATION_ACTIVE, c)
  | SearchState.uninitialized =>
    (CK_RV.CKR_OK,
     { c with search := SearchState.searching ⟨c.tok, c.tok, templ⟩ })

/-- The cursor state after one find call examined up to `m` further
matches: same snapshot and template, the unexamined suffix as remainder. -/
def advanceSearch (a : SearchActive) (m : Nat) : SearchActive :=
  ⟨a.all, (takeWhere (matchPred a.all a.templ) m a.rem).2, a.templ⟩

/-- Modelled from the spec: the body of `object_find` is missing from
src/.  Per §4.3 it advances the cursor through the snapshot, testing the
template via link-resolver redirection for each remaining object in order,
emitting up to `maxCount` matching handles; calling it with no search
outstanding fails with the operation-not-initialized condition. -/
def object_find (c : session_ctx) (maxCount : Nat) :
    CK_RV × List Nat × session_ctx :=
  match c.search with
  | SearchState.uninitialized => (CK_RV.CKR_OPERATION_NOT_INITIALIZED, [], c)
  | SearchState.searching a =>
    (CK_RV.CKR_OK,
     (takeWhere (matchPred a.all a.templ) maxCount a.rem).1,
     { c with search := SearchState.searching (advanceSearch a maxCount) })

/-- Modelled from the spec: the body of `object_find_final` is missing from
src/.  Per §4.3 it discards the snapshot and cursor, returning the session
to Uninitialized. -/
def object_find_final (c : session_ctx) : CK_RV × session_ctx :=
  match c.search with
  | SearchState.uninitialized => (CK_RV.CKR_OPERATION_NOT_INITIALIZED, c)
  | SearchState.searching _ =>
    (CK_RV.CKR_OK, { c with search := SearchState.uninitialized })

/-- Run a sequence of `object_find` calls with the given chunk sizes,
concatenating the emitted handles. -/
def runFinds : List Nat → session_ctx → List Nat × session_ctx
  | [], c => ([], c)
  | m :: ms, c =>
    ((object_find c m).2.1 ++ (runFinds ms (object_find c m).2.2).1,
     (runFinds ms (object_find c m).2.2).2)

theorem foldl_register_search (extra : List tobject) :
    ∀ c : session_ctx, (List.foldl token_register c extra).search = c.search := by
  induction extra with
  | nil => intro c; rfl
  | cons t rest ih =>
    intro c
    rw [List.foldl_cons]
    exact (ih (token_register c t)).trans rfl

theorem runFinds_searching (ms : List Nat) :
    ∀ (c : session_ctx) (all rem : List tobject) (templ : attr_list),
      c.search = SearchState.searching ⟨all, rem, templ⟩ →
      (runFinds ms c).1
        = List.take ms.sum (matchedHandles (matchPred all templ) rem)
      ∧ (runFinds ms c).2.tok = c.tok
      ∧ ∃ rem' : List tobject,
          (runFinds ms c).2.search = SearchState.searching ⟨all, rem', templ⟩
          ∧ matchedHandles (matchPred all templ) rem'
              = List.drop ms.sum (matchedHandles (matchPred all templ) rem) := by
  induction ms with
  | nil =>
    intro c all rem templ hs
    exact ⟨by simp [runFinds], rfl, rem, hs, by simp⟩
  | cons m ms ih =>
    intro c all rem templ hs
    have hfind : object_find c m
        = (CK_RV.CKR_OK, (takeWhere (matchPred all templ) m rem).1,
           { c with search := SearchState.searching (advanceSearch ⟨all, rem, templ⟩ m) }) := by
      simp only [object_find, hs]
    obtain ⟨ihf, ihtok, rem', ihs, ihm⟩ :=
      ih { c with search := SearchState.searching (advanceSearch ⟨all, rem, templ⟩ m) }
        all ((takeWhere (matchPred all templ) m rem).2) templ rfl
    refine ⟨?_, ?_, rem', ?_, ?_⟩
    · simp only [runFinds, hfind]
      rw [ihf, takeWhere_fst, takeWhere_snd, List.sum_cons, List.take_add]
    · simp only [runFinds, hfind]
      rw [ihtok]
    · simp only [runFinds, hfind]
      exact ihs
    · rw [ihm, takeWhere_snd, List.sum_cons, List.drop_drop]

/-- C3: after find_init on a session seeing registry `tok`, any sequence
of find calls with chunk sizes `ms` — even with further objects registered
after find_init — emits exactly the first `sum ms` handles of the matching
objects, in registry (stable) order; once the chunk budget covers all
matches, the concatenated chunked results equal the full matched-handle
list (each live matching object exactly once, in order) and every further
find call returns zero results; and a single unchunked find over the same
snapshot returns that same full list, so the chunked concatenation equals
the unchunked result.  Objects registered after find_init are never
observed, since the emissions are computed from the snapshot alone. -/
theorem object_find_chunked_snapshot (tok : List tobject) (templ : attr_list)
    (ms : List Nat) (extra : List tobject) :
    (runFinds ms (List.foldl token_register
        (object_find_init ⟨tok, SearchState.uninitialized⟩ templ).2 extra)).1
      = List.take ms.sum (matchedHandles (matchPred tok templ) tok)
    ∧ ((matchedHandles (matchPred tok templ) tok).length ≤ ms.sum →
        (runFinds ms (List.foldl token_register
            (object_find_init ⟨tok, SearchState.uninitialized⟩ templ).2 extra)).1
          = matchedHandles (matchPred tok templ) tok
        ∧ ∀ m : Nat,
            (object_find (runFinds ms (List.foldl token_register
                (object_find_init ⟨tok, SearchState.uninitialized⟩ templ).2
                extra)).2 m).2.1 = [])
    ∧ (∀ n : Nat, (matchedHandles (matchPred tok templ) tok).length ≤ n →
        (object_find (object_find_init
            ⟨tok, SearchState.uninitialized⟩ templ).2 n).2.1
          = matchedHandles (matchPred tok templ) tok) := by
  have hsearch : (List.foldl token_register
      (object_find_init ⟨tok, SearchState.uninitialized⟩ templ).2 extra).search
      = SearchState.searching ⟨tok, tok, templ⟩ := by
    rw [foldl_register_search]
    rfl
  obtain ⟨hf, htok, rem', hs, hm⟩ :=
    runFinds_searching ms _ tok tok templ hsearch
  refine ⟨hf, ?_, ?_⟩
  · intro hle
    refine ⟨hf.trans (List.take_of_length_le hle), ?_⟩
    intro m
    have hdrop : matchedHandles (matchPred tok templ) rem' = [] := by
      rw [hm]
      exact List.drop_eq_nil_of_le hle
    have hfind : ∀ d : session_ctx,
        d.search = SearchState.searching ⟨tok, rem', templ⟩ →
        (object_find d m).2.1 = (takeWhere (matchPred tok templ) m rem').1 := by
      intro d hd
      simp only [object_find, hd]
    rw [hfind _ hs, takeWhere_fst, hdrop]
    simp
  · intro n hn
    have hone : (object_find (object_find_init
        ⟨tok, SearchState.uninitialized⟩ templ).2 n).2.1
        = (takeWhere (matchPred tok templ) n tok).1 := rfl
    rw [hone, takeWhere_fst]
    exact List.take_of_length_le hn

/-- Concrete matching object for the search witness. -/
def wObjA : tobject :=
  { tobject_new with id := 1, obj_handle := 11, attrs := [⟨0, [1]⟩] }

/-- Concrete non-matching object for the search witness. -/
def wObjB : tobject :=
  { tobject_new with id := 2, obj_handle := 12, attrs := [⟨0, [2]⟩] }

/-- Concrete matching object (with an extra attribute) for the search
witness. -/
def wObjC : tobject :=
  { tobject_new with id := 3, obj_handle := 13, attrs := [⟨0, [1]⟩, ⟨1, [5]⟩] }

/-- Concrete matching object registered only after find_init in the search
witness. -/
def wObjD : tobject :=
  { tobject_new with id := 4, obj_handle := 14, attrs := [⟨0, [1]⟩] }

/-- Concrete template for the search witness. -/
def wTempl : attr_list := [⟨0, [1]⟩]

theorem object_find_chunked_snapshot_witness :
    (runFinds [1, 5] (List.foldl token_register
        (object_find_init ⟨[wObjA, wObjB, wObjC], SearchState.uninitialized⟩
          wTempl).2 [wObjD])).1 = [11, 13]
    ∧ (object_find (runFinds [1, 5] (List.foldl token_register
        (object_find_init ⟨[wObjA, wObjB, wObjC], SearchState.uninitialized⟩
          wTempl).2 [wObjD])).2 7).2.1 = [] := by
  have h := object_find_chunked_snapshot [wObjA, wObjB, wObjC] wTempl [1, 5] [wObjD]
  have h2 := h.2.1 (by decide)
  exact ⟨h2.1.trans (by decide), h2.2 7⟩
